import Mathlib

/-!
Verification of the Network-FQDN-Generator repository.

Shallow embedding of `settings.py` and `fqdn_generator.py`.  Strings are
modelled as Lean `String`s (lists of characters); the Python string
primitives used by the source (`lower`, `strip`, `replace`, `split`,
`find`) are embedded as structurally recursive functions on `List Char`
so that every definition evaluates by kernel reduction.  DNS (`socket`)
is modelled as an oracle: a pair of partial functions from names to
addresses and from addresses to names, a lookup that raises being
`none`.  Python character semantics are modelled on the ASCII fragment,
which is the alphabet the program's own data (hostnames, interface
names, IPv4 addresses) lives in.
-/

namespace Fqdn

/-! ## settings.py -/

/-- `settings.DEFAULT_DOMAIN` (settings.py line 3). -/
def DEFAULT_DOMAIN : String := "gatesint.com"

/-- `settings.INTERFACE_MAP` (settings.py lines 8-28), as an association
list in the source's key order (keys are pairwise distinct, so order is
irrelevant to lookup). -/
def INTERFACE_MAP : List (String × String) := [
  ("cellular", "ce"),
  ("fortygigabitethernet", "fo"),
  ("fortygige", "fo"),
  ("tengigabitethernet", "te"),
  ("gigabitethernet", "gi"),
  ("fastethernet", "fa"),
  ("ethernet", "et"),
  ("ge", "gi"),
  ("loopback", "lo"),
  ("loop", "lo"),
  ("multilink", "mu"),
  ("port-channel", "po"),
  ("portchannel", "po"),
  ("ether-channel", "po"),
  ("etherchannel", "po"),
  ("serial", "se"),
  ("tunnel", "tu"),
  ("vlan", "vl"),
  ("bvi", "bv")]

/-- `settings.MULTITHREAD` (settings.py line 33). -/
def MULTITHREAD : Bool := true

/-- `settings.PREFER_INTERFACE_FQDN_PTR` (settings.py line 39). -/
def PREFER_INTERFACE_FQDN_PTR : Bool := true

/-- `settings.SAVE_TO_CSV` (settings.py line 44). -/
def SAVE_TO_CSV : Bool := true

/-! ## Python string primitives -/

/-- The whitespace characters stripped by Python `str.strip()` (ASCII
fragment). -/
def isSpace (c : Char) : Bool :=
  c = ' ' || c = '\t' || c = '\n' || c = '\r' || c = '\x0b' || c = '\x0c'

/-- Python `str.strip()`: remove leading and trailing whitespace. -/
def strip (l : List Char) : List Char :=
  ((l.dropWhile isSpace).reverse.dropWhile isSpace).reverse

/-- Python `str.lower()` (ASCII fragment), via Lean's `Char.toLower`. -/
def lowerChars (l : List Char) : List Char := l.map Char.toLower

/-- Python `str.replace("--", "-")`: scan left to right, replacing each
non-overlapping occurrence of two dashes by one. -/
def replaceDD : List Char → List Char
  | '-' :: '-' :: rest => '-' :: replaceDD rest
  | c :: rest => c :: replaceDD rest
  | [] => []

/-- Python `s.find(p) == 0`, i.e. `p` is an initial segment of `s`. -/
def beginsWith : List Char → List Char → Bool
  | _, [] => true
  | [], _ :: _ => false
  | c :: cs, p :: ps => c = p && beginsWith cs ps

/-! ## `_clean_device_hostname` (fqdn_generator.py lines 155-171) -/

/-- The character substitution of `hostname.replace("_", "-")`. -/
def subU (c : Char) : Char := if c = '_' then '-' else c

/-- Core of `_clean_device_hostname`: lowercase, keep only the part
before the first `"."` (Python `split(".")[0]`, which is the whole
string when no dot occurs), substitute underscores by dashes, then
apply the double-dash collapse twice. -/
def cleanDeviceCore (l : List Char) : List Char :=
  replaceDD (replaceDD (((l.map Char.toLower).takeWhile (fun c => c != '.')).map subU))

/-- `_clean_device_hostname` at `String` level. -/
def clean_device_hostname (s : String) : String := ⟨cleanDeviceCore s.data⟩

/-! ## `_clean_interface_hostname` (fqdn_generator.py lines 174-203) -/

/-- The two ways `_clean_interface_hostname` can raise: the unhandled
`IndexError` from `re.findall('^[a-z]+-[a-z]+|^[a-z]+', ...)[0]` when
the pattern does not match (line 185), and the explicit exception for an
interface type missing from `INTERFACE_MAP` (line 196). -/
inductive IfaceError where
  | indexError : IfaceError
  | unknownInterfaceType (t : String) : IfaceError
  deriving DecidableEq, Repr

/-- The separator substitutions of lines 176-179
(`_`, `.`, `:`, `/` each become `-`). -/
def sepToDash (c : Char) : Char :=
  if c = '_' || c = '.' || c = ':' || c = '/' then '-' else c

/-- Lines 175-181: lowercase, substitute separators, collapse double
dashes twice. -/
def normIface (l : List Char) : List Char :=
  replaceDD (replaceDD ((l.map Char.toLower).map sepToDash))

/-- `[a-z]` character class of the interface-type regex. -/
def isLowerAlpha (c : Char) : Bool := 'a' ≤ c && c ≤ 'z'

/-- `re.findall('^[a-z]+-[a-z]+|^[a-z]+', s)` restricted to its first
element: the anchored pattern matches only at position 0; the first
alternative (letters, dash, letters — greedy, so maximal letter runs)
is preferred, falling back to a plain leading letter run; `none` when
the string does not start with a lowercase letter (in the source this
makes `[0]` raise `IndexError`). -/
def extractType (l : List Char) : Option (List Char) :=
  let l1 := l.takeWhile isLowerAlpha
  if l1.isEmpty then none
  else
    match l.dropWhile isLowerAlpha with
    | '-' :: r2 =>
      let l2 := r2.takeWhile isLowerAlpha
      if l2.isEmpty then some l1 else some (l1 ++ '-' :: l2)
    | _ => some l1

/-- `re.findall('[0-9].*', s)[0]` with the `IndexError` handler of lines
187-190: everything from the first digit to the end, or empty when no
digit occurs.  (The source strings contain no newline, so `.*` reaches
the end of the string.) -/
def extractNumber (l : List Char) : List Char :=
  l.dropWhile (fun c => !c.isDigit)

/-- Lookup in `INTERFACE_MAP` (lines 193-194). -/
def lookupIface : List (String × String) → String → Option String
  | [], _ => none
  | (k, v) :: rest, t => if k = t then some v else lookupIface rest t

/-- Core of `_clean_interface_hostname` on character lists. -/
def cleanInterfaceCore (hostname : List Char) (interface : List Char) :
    Except IfaceError (List Char) :=
  let i := normIface interface
  match extractType i with
  | none => .error .indexError
  | some ty =>
    let number := extractNumber i
    match lookupIface INTERFACE_MAP ⟨ty⟩ with
    | none => .error (.unknownInterfaceType ⟨ty⟩)
    | some short =>
      if number.isEmpty then .ok (hostname ++ '-' :: short.data)
      else .ok (hostname ++ '-' :: short.data ++ '-' :: number)

/-- `_clean_interface_hostname` at `String` level. -/
def clean_interface_hostname (hostname : String) (interface : String) :
    Except IfaceError String :=
  (cleanInterfaceCore hostname.data interface.data).map (⟨·⟩)

/-! ## `ipaddress.IPv4Address` (the fragment the source uses) -/

/-- A parsed IPv4 address: four octets. -/
structure IPv4 where
  a : Nat
  b : Nat
  c : Nat
  d : Nat
  deriving DecidableEq, Repr

/-- Decimal digit character. -/
def digitChar (n : Nat) : Char := Char.ofNat (48 + n % 10)

/-- Decimal rendering of one octet (values 0-255, at most three
digits). -/
def octetStr (n : Nat) : List Char :=
  if n < 10 then [digitChar n]
  else if n < 100 then [digitChar (n / 10), digitChar n]
  else [digitChar (n / 100), digitChar (n / 10), digitChar n]

/-- `IPv4Address.compressed`: dotted-quad rendering (for IPv4 the
compressed and exploded forms coincide).  The source applies
`.strip()` to this, a no-op since the rendering contains no
whitespace. -/
def IPv4.compressed (ip : IPv4) : String :=
  ⟨octetStr ip.a ++ '.' :: octetStr ip.b ++ '.' :: octetStr ip.c ++ '.' :: octetStr ip.d⟩

/-- `IPv4Address.reverse_pointer`: the in-addr.arpa name, octets
reversed. -/
def IPv4.reversePointer (ip : IPv4) : String :=
  ⟨octetStr ip.d ++ '.' :: octetStr ip.c ++ '.' :: octetStr ip.b ++ '.' :: octetStr ip.a
    ++ ".in-addr.arpa".data⟩

/-- One dotted-quad octet field: one to three decimal digits, no
leading zero (Python ≥ 3.9 rejects them), value at most 255. -/
def parseOctet (l : List Char) : Option Nat :=
  if l.isEmpty then none
  else if l.length > 3 then none
  else if l.any (fun c => !c.isDigit) then none
  else if l.head? = some '0' && l.length > 1 then none
  else
    let n := l.foldl (fun acc c => acc * 10 + (c.toNat - 48)) 0
    if n ≤ 255 then some n else none

/-- Split a character list at every `'.'` (like Python
`s.split(".")`). -/
def splitOnDot : List Char → List (List Char)
  | [] => [[]]
  | '.' :: rest => [] :: splitOnDot rest
  | c :: rest =>
    match splitOnDot rest with
    | [] => [[c]]
    | p :: ps => (c :: p) :: ps

/-- `ipaddress.IPv4Address(s)` on a string: exactly four octet fields
separated by dots. -/
def parseIPv4 (s : String) : Option IPv4 :=
  match splitOnDot s.data with
  | [w, x, y, z] =>
    match parseOctet w, parseOctet x, parseOctet y, parseOctet z with
    | some a, some b, some c, some d => some ⟨a, b, c, d⟩
    | _, _, _, _ => none
  | _ => none

/-! ## class `Address_FQDN` (fqdn_generator.py lines 70-152) -/

/-- The DNS environment: `socket.gethostbyname` (name to address) and
`socket.gethostbyaddr` (address to primary name); `none` models the
call raising. -/
structure DnsOracle where
  forward : String → Option String
  reverse : String → Option String

/-- The exceptions `Address_FQDN.__init__` raises: an unparsable
address argument (lines 80/85) and a zero-length hostname (line 92). -/
inductive BuildError where
  | invalidAddress : BuildError
  | invalidHostname : BuildError
  deriving DecidableEq, Repr

/-- The fields of a fully constructed `Address_FQDN` object. -/
structure Address_FQDN where
  ip_address : String
  hostname : String
  domain : String
  full_name : String
  forward_lookup_exists : Bool
  forward_lookup_needs_update : Bool
  forward_lookup_existing_value : Option String
  reverse_lookup_exists : Bool
  reverse_lookup_needs_update : Bool
  reverse_lookup_existing_value : Option String
  ptr_record : String
  deriving DecidableEq, Repr

/-- The forward-lookup try block (lines 112-126): the triple
(`forward_lookup_exists`, `forward_lookup_needs_update`,
`forward_lookup_existing_value`). -/
def forwardLookupFields (dns : DnsOracle) (full_name ip_address : String) :
    Bool × Bool × Option String :=
  match dns.forward full_name with
  | some address_info =>
    if address_info = ip_address then (true, false, some address_info)
    else (true, true, some address_info)
  | none => (false, true, none)

/-- The reverse-lookup try block (lines 127-145): the triple
(`reverse_lookup_exists`, `reverse_lookup_needs_update`,
`reverse_lookup_existing_value`). -/
def reverseLookupFields (dns : DnsOracle) (full_name hostname ip_address : String) :
    Bool × Bool × Option String :=
  match dns.reverse ip_address with
  | some hostname_info =>
    if hostname_info = full_name then (true, false, some hostname_info)
    else if beginsWith hostname_info.data (hostname.data ++ ['-'])
        && PREFER_INTERFACE_FQDN_PTR then (true, false, some hostname_info)
    else (true, true, some hostname_info)
  | none => (false, true, none)

/-- `Address_FQDN.__init__` given an already-parsed `IPv4Address`
argument (the `isinstance(ipv4_address, ipaddress.IPv4Address)` branch
of line 81); string arguments go through `Address_FQDN_build` below.
The only remaining failure is the zero-length hostname check of lines
90-92, which the source performs on the raw string, before
trimming. -/
def Address_FQDN_init (dns : DnsOracle) (ipv4_address : IPv4) (hostname : String)
    (domain : Option String) : Except BuildError Address_FQDN :=
  if hostname.length = 0 then .error .invalidHostname
  else
    let ip_address : String := ipv4_address.compressed
    let hn : String := ⟨lowerChars (strip hostname.data)⟩
    let dom0 : String :=
      match domain with
      | none => DEFAULT_DOMAIN
      | some d => if d.length = 0 then DEFAULT_DOMAIN else d
    let dom : String := ⟨lowerChars (strip dom0.data)⟩
    let full_name : String := hn ++ "." ++ dom
    let f := forwardLookupFields dns full_name ip_address
    let r := reverseLookupFields dns full_name hn ip_address
    .ok {
      ip_address := ip_address
      hostname := hn
      domain := dom
      full_name := full_name
      forward_lookup_exists := f.1
      forward_lookup_needs_update := f.2.1
      forward_lookup_existing_value := f.2.2
      reverse_lookup_exists := r.1
      reverse_lookup_needs_update := r.2.1
      reverse_lookup_existing_value := r.2.2
      ptr_record := ipv4_address.reversePointer }

/-- `Address_FQDN(...)` with a string address argument: parse it first
(lines 75-80), raising `invalidAddress` when `ipaddress.IPv4Address`
rejects it. -/
def Address_FQDN_build (dns : DnsOracle) (ipv4_address : String) (hostname : String)
    (domain : Option String) : Except BuildError Address_FQDN :=
  match parseIPv4 ipv4_address with
  | none => .error .invalidAddress
  | some ip => Address_FQDN_init dns ip hostname domain

/-- The `logging.info` note of lines 101-102: emitted exactly when a
zero-length domain string was supplied. -/
def emptyDomainNote (domain : Option String) : Bool :=
  match domain with
  | some d => d.length = 0
  | none => false

/-! ## `main` (fqdn_generator.py lines 220-301), the batch coordinator -/

/-- One input row, as produced by `tools.table_to_dictionary`:
the keys `main` reads.  `interface_name = none` models the key being
absent, likewise `domain`. -/
structure Row where
  ip_address : String
  device_hostname : String
  interface_name : Option String
  domain : Option String
  deriving DecidableEq, Repr

/-- The per-row result dictionary `main` returns. -/
structure BatchResult where
  status : Bool
  data : Option (List Address_FQDN)
  deriving DecidableEq, Repr

/-- The hostname-cleaning pass of lines 239-247: clean the device
hostname; then, if a non-empty interface name is present, try to
replace it by the interface hostname — the `except` branch of line 246
only logs, so on failure the row keeps the cleaned device hostname. -/
def cleanRow (r : Row) : Row :=
  let dh := clean_device_hostname r.device_hostname
  let dh2 :=
    match r.interface_name with
    | some iface =>
      if iface.length > 0 then
        match clean_interface_hostname dh iface with
        | .ok h => h
        | .error _ => dh
      else dh
    | none => dh
  { r with device_hostname := dh2 }

/-- The object-construction loop (sequential branch, lines 267-272):
rows whose construction raises are logged and skipped.  The
multithreaded branch appends the same successful records, in completion
order; this model fixes input order. -/
def rowOutputs (dns : DnsOracle) (rows : List Row) : List Address_FQDN :=
  (rows.map cleanRow).filterMap
    (fun r => (Address_FQDN_build dns r.ip_address r.device_hostname r.domain).toOption)

/-- `main` after input acquisition: the zero-row check of lines 233-235
and the row pipeline, returning the status dictionary of line 301. -/
def main_run (dns : DnsOracle) (rows : List Row) : BatchResult :=
  if rows.length = 0 then { status := false, data := none }
  else { status := true, data := some (rowOutputs dns rows) }

/-! ## Lemmas about the double-dash collapse -/

theorem replaceDD_eq_nil_iff {l : List Char} : replaceDD l = [] ↔ l = [] := by
  induction l using replaceDD.induct with
  | case1 rest ih => simp [replaceDD]
  | case2 c rest h ih => rw [replaceDD.eq_2 _ _ h]; simp
  | case3 => simp [replaceDD]

theorem replaceDD_head? (l : List Char) : (replaceDD l).head? = l.head? := by
  induction l using replaceDD.induct with
  | case1 rest ih => simp [replaceDD]
  | case2 c rest h ih => rw [replaceDD.eq_2 _ _ h]; simp
  | case3 => simp [replaceDD]

theorem getLast?_cons_of_ne_nil (a : Char) {l : List Char} (h : l ≠ []) :
    (a :: l).getLast? = l.getLast? := by
  rcases l with _ | ⟨b, bs⟩
  · exact absurd rfl h
  · exact List.getLast?_cons_cons

theorem replaceDD_getLast? (l : List Char) : (replaceDD l).getLast? = l.getLast? := by
  induction l using replaceDD.induct with
  | case1 rest ih =>
    rw [replaceDD.eq_1]
    rcases hr : rest with _ | ⟨r, rs⟩
    · simp [replaceDD]
    · rw [← hr]
      have hne : rest ≠ [] := by rw [hr]; simp
      have hne2 : replaceDD rest ≠ [] := fun h => hne (replaceDD_eq_nil_iff.mp h)
      rw [getLast?_cons_of_ne_nil _ hne2, ih,
        getLast?_cons_of_ne_nil _ (by simp [hr] : ('-' :: rest) ≠ []),
        getLast?_cons_of_ne_nil _ hne]
  | case2 c rest h ih =>
    rw [replaceDD.eq_2 _ _ h]
    rcases hr : rest with _ | ⟨r, rs⟩
    · simp [replaceDD]
    · rw [← hr]
      have hne : rest ≠ [] := by rw [hr]; simp
      have hne2 : replaceDD rest ≠ [] := fun hh => hne (replaceDD_eq_nil_iff.mp hh)
      rw [getLast?_cons_of_ne_nil _ hne2, ih, getLast?_cons_of_ne_nil _ hne]
  | case3 => simp [replaceDD]

theorem replaceDD_append (x y : List Char) :
    x.getLast? ≠ some '-' → replaceDD (x ++ y) = replaceDD x ++ replaceDD y := by
  induction x using replaceDD.induct with
  | case1 rest ih =>
    intro hx
    rcases hr : rest with _ | ⟨r, rs⟩
    · subst hr; exact absurd (by simp : (['-', '-'] : List Char).getLast? = some '-') hx
    · rw [← hr]
      have hne : rest ≠ [] := by rw [hr]; simp
      have hx' : rest.getLast? ≠ some '-' := by
        rw [getLast?_cons_of_ne_nil _ (by simp [hr] : ('-' :: rest) ≠ []),
          getLast?_cons_of_ne_nil _ hne] at hx
        exact hx
      rw [List.cons_append, List.cons_append, replaceDD.eq_1, replaceDD.eq_1,
        ih hx', List.cons_append]
  | case2 c rest h ih =>
    intro hx
    rcases hr : rest with _ | ⟨r, rs⟩
    · subst hr
      have hc : c ≠ '-' := by simpa using hx
      rw [List.cons_append, List.nil_append,
        replaceDD.eq_2 c y (fun r1 hcd _ => hc hcd),
        replaceDD.eq_2 c [] h]
      simp [replaceDD]
    · rw [← hr]
      have hne : rest ≠ [] := by rw [hr]; simp
      have hx' : rest.getLast? ≠ some '-' := by
        rw [getLast?_cons_of_ne_nil _ hne] at hx
        exact hx
      by_cases hc : c = '-'
      · subst hc
        have hrne : r ≠ '-' := fun hrd => h rs (by rfl) (by rw [hr, hrd])
        rw [List.cons_append,
          replaceDD.eq_2 '-' (rest ++ y)
            (fun r1 _ hcons => by
              rw [hr] at hcons
              simp only [List.cons_append, List.cons.injEq] at hcons
              exact hrne hcons.1),
          replaceDD.eq_2 '-' rest h, ih hx', List.cons_append]
      · rw [List.cons_append,
          replaceDD.eq_2 c (rest ++ y) (fun r1 hcd _ => hc hcd),
          replaceDD.eq_2 c rest h, ih hx', List.cons_append]
  | case3 => intro _; simp [replaceDD]

theorem replaceDD_replicate_append (n : Nat) (y : List Char) (hy : y.head? ≠ some '-') :
    replaceDD (List.replicate n '-' ++ y) =
      List.replicate ((n + 1) / 2) '-' ++ replaceDD y := by
  induction n using Nat.twoStepInduction with
  | zero => simp
  | one =>
    have hcond : ∀ r1 : List Char, ('-' : Char) = '-' → y = '-' :: r1 → False := by
      intro r1 _ hcons
      exact hy (by rw [hcons]; rfl)
    simp only [List.replicate_succ, List.replicate_zero, List.cons_append, List.nil_append]
    rw [replaceDD.eq_2 '-' y hcond]
  | more n ih _ =>
    have h2 : (n + 2 + 1) / 2 = (n + 1) / 2 + 1 := by omega
    rw [List.replicate_succ, List.replicate_succ, List.cons_append, List.cons_append,
      replaceDD.eq_1, ih, h2, List.replicate_succ, List.cons_append]

/-- `noConsecutiveDashes l` holds when `l` has no two adjacent dashes
(the canonical-form condition under which the collapse is the
identity). -/
def noConsecutiveDashes : List Char → Bool
  | '-' :: '-' :: _ => false
  | _ :: rest => noConsecutiveDashes rest
  | [] => true

theorem replaceDD_eq_self {l : List Char} (h : noConsecutiveDashes l = true) :
    replaceDD l = l := by
  induction l using replaceDD.induct with
  | case1 rest ih => simp [noConsecutiveDashes] at h
  | case2 c rest hcond ih =>
    rw [replaceDD.eq_2 _ _ hcond, noConsecutiveDashes.eq_2 _ _ hcond] at *
    rw [ih h]
  | case3 => rfl

/-! ## Lemmas about characters and elementwise maps -/

theorem toLower_eq_of_not_lower {c d : Char} (hd : ¬('a' ≤ d ∧ d ≤ 'z'))
    (h : Char.toLower c = d) : c = d := by
  simp only [Char.toLower] at h
  split at h
  · exfalso
    rename_i hc
    obtain ⟨h1, h2⟩ := hc
    apply hd
    rw [← h]
    generalize c.toNat = n at h1 h2
    interval_cases n <;> decide
  · exact h

theorem toLower_self_of_dash_or_underscore {c : Char} (h : c = '-' ∨ c = '_') :
    Char.toLower c = c := by
  rcases h with h | h <;> subst h <;> decide

theorem subU_eq_dash_iff {c : Char} : subU c = '-' ↔ (c = '-' ∨ c = '_') := by
  unfold subU
  split
  · rename_i h; subst h; simp
  · rename_i h
    constructor
    · intro hh; exact Or.inl hh
    · intro hh; rcases hh with hh | hh
      · exact hh
      · exact absurd hh h

theorem map_eq_self_of {f : Char → Char} {l : List Char} (h : ∀ c ∈ l, f c = c) :
    l.map f = l := by
  induction l with
  | nil => rfl
  | cons c cs ih =>
    simp only [List.map_cons, h c (by simp), List.cons.injEq, true_and]
    exact ih (fun x hx => h x (by simp [hx]))

theorem takeWhile_all {p : Char → Bool} {l : List Char} (h : ∀ c ∈ l, p c = true) :
    l.takeWhile p = l := by
  induction l with
  | nil => rfl
  | cons c cs ih =>
    have hc := h c (by simp)
    simp only [List.takeWhile_cons, hc, if_true, List.cons.injEq, true_and]
    exact ih (fun x hx => h x (by simp [hx]))

theorem takeWhile_append_all {p : Char → Bool} {xs : List Char} (ys : List Char)
    (h : ∀ c ∈ xs, p c = true) :
    (xs ++ ys).takeWhile p = xs ++ ys.takeWhile p := by
  induction xs with
  | nil => simp
  | cons c cs ih =>
    have hc := h c (by simp)
    simp only [List.cons_append, List.takeWhile_cons, hc, if_true, List.cons.injEq, true_and]
    exact ih (fun x hx => h x (by simp [hx]))

theorem map_subU_run {r : List Char} (h : ∀ c ∈ r, c = '-' ∨ c = '_') :
    r.map subU = List.replicate r.length '-' := by
  induction r with
  | nil => rfl
  | cons c cs ih =>
    rw [List.map_cons, List.length_cons, List.replicate_succ]
    have hc : subU c = '-' := subU_eq_dash_iff.mpr (h c (by simp))
    rw [hc]
    simp only [List.cons.injEq, true_and]
    exact ih (fun x hx => h x (by simp [hx]))

theorem head?_takeWhile {p : Char → Bool} {l : List Char} {x : Char}
    (h : (l.takeWhile p).head? = some x) : l.head? = some x := by
  rcases l with _ | ⟨c, cs⟩
  · simp at h
  · rw [List.takeWhile_cons] at h
    by_cases hp : p c = true
    · rw [hp] at h; simp at h ⊢; simpa using h
    · simp [hp] at h

/-- Canonical form of a device hostname as the spec describes it:
lowercase, no dots, no underscores, no consecutive dashes. -/
def CanonicalHostname (s : String) : Prop :=
  (∀ c ∈ s.data, Char.toLower c = c) ∧ '.' ∉ s.data ∧ '_' ∉ s.data ∧
    noConsecutiveDashes s.data = true

theorem clean_device_hostname_canonical_fix {s : String} (h : CanonicalHostname s) :
    clean_device_hostname s = s := by
  obtain ⟨h1, h2, h3, h4⟩ := h
  have e1 : s.data.map Char.toLower = s.data := map_eq_self_of h1
  have e2 : (s.data).takeWhile (fun c => c != '.') = s.data :=
    takeWhile_all (fun c hc => by
      have hne : c ≠ '.' := fun hh => h2 (hh ▸ hc)
      simpa [bne_iff_ne] using hne)
  have e3 : s.data.map subU = s.data :=
    map_eq_self_of (fun c hc => by
      have hne : c ≠ '_' := fun hh => h3 (by rw [← hh]; exact hc)
      unfold subU
      rw [if_neg hne])
  show (⟨cleanDeviceCore s.data⟩ : String) = s
  unfold cleanDeviceCore
  rw [e1, e2, e3, replaceDD_eq_self h4, replaceDD_eq_self h4]

/-! ## Claim theorems: the identifier normalizer -/

/-- C3 (counterexample): the claim says runs of 1-5 underscores/dashes
collapse to exactly one dash; on the concrete input `"a_____b"`, whose
run of 5 underscores lies between two letters, the returned hostname is
`"a--b"`, a run of two dashes, not one. -/
theorem claim_C3_counterexample :
    clean_device_hostname "a_____b" = "a--b" ∧ ("a--b" : String) ≠ "a-b" :=
  ⟨rfl, by decide⟩

/-- C3 (amended): in `normalize_device_hostname`, a maximal run of 1 to
4 consecutive underscores or dashes (with no dot anywhere before it, so
that it survives the domain-stripping step) is reduced to exactly one
dash; the parts on either side are processed as they would be alone. -/
theorem claim_C3 (a r b : List Char) (n : Nat)
    (hn1 : 1 ≤ n) (hn4 : n ≤ 4) (hlen : r.length = n)
    (hr : ∀ c ∈ r, c = '-' ∨ c = '_')
    (ha : ∀ c ∈ a, c ≠ '.')
    (halast : a.getLast? ≠ some '-' ∧ a.getLast? ≠ some '_')
    (hbhead : b.head? ≠ some '-' ∧ b.head? ≠ some '_') :
    cleanDeviceCore (a ++ r ++ b) = cleanDeviceCore a ++ '-' :: cleanDeviceCore b := by
  have subU_ne : ∀ c : Char, c ≠ '-' → c ≠ '_' → subU (Char.toLower c) ≠ '-' := by
    intro c h1 h2 hcon
    rcases subU_eq_dash_iff.mp hcon with hh | hh
    · exact h1 (toLower_eq_of_not_lower (by decide) hh)
    · exact h2 (toLower_eq_of_not_lower (by decide) hh)
  have hmap : (a ++ r ++ b).map Char.toLower
      = (a.map Char.toLower ++ r) ++ b.map Char.toLower := by
    rw [List.map_append, List.map_append,
      map_eq_self_of (fun c hc => toLower_self_of_dash_or_underscore (hr c hc))]
  have hlaDot : ∀ c ∈ a.map Char.toLower ++ r, (c != '.') = true := by
    intro c hc
    rcases List.mem_append.mp hc with hc | hc
    · obtain ⟨c0, hc0, rfl⟩ := List.mem_map.mp hc
      have hne : Char.toLower c0 ≠ '.' :=
        fun hh => ha c0 hc0 (toLower_eq_of_not_lower (by decide) hh)
      simpa [bne_iff_ne] using hne
    · rcases hr c hc with hh | hh <;> subst hh <;> decide
  have htake : ((a.map Char.toLower ++ r) ++ b.map Char.toLower).takeWhile (fun c => c != '.')
      = (a.map Char.toLower ++ r)
        ++ (b.map Char.toLower).takeWhile (fun c => c != '.') :=
    takeWhile_append_all _ hlaDot
  have hsub : (((a.map Char.toLower ++ r)
        ++ (b.map Char.toLower).takeWhile (fun c => c != '.')).map subU)
      = ((a.map Char.toLower).map subU ++ List.replicate n '-')
        ++ ((b.map Char.toLower).takeWhile (fun c => c != '.')).map subU := by
    rw [List.map_append, List.map_append, map_subU_run hr, hlen]
  have hA : ((a.map Char.toLower).map subU).getLast? ≠ some '-' := by
    rw [List.getLast?_map, List.getLast?_map]
    rcases hl : a.getLast? with _ | c
    · simp
    · rw [hl] at halast
      have h1 : c ≠ '-' := fun hh => halast.1 (by rw [hh])
      have h2 : c ≠ '_' := fun hh => halast.2 (by rw [hh])
      intro hcon
      simp only [Option.map_some'] at hcon
      exact subU_ne c h1 h2 (by simpa using hcon)
  have hB : ((((b.map Char.toLower).takeWhile (fun c => c != '.')).map subU)).head?
      ≠ some '-' := by
    rw [List.head?_map]
    rcases ht : ((b.map Char.toLower).takeWhile (fun c => c != '.')).head? with _ | x
    · simp
    · have hx := head?_takeWhile ht
      rw [List.head?_map] at hx
      rcases hb0 : b.head? with _ | c0
      · rw [hb0] at hx; simp at hx
      · rw [hb0] at hx
        simp only [Option.map_some', Option.some.injEq] at hx
        rw [hb0] at hbhead
        have h1 : c0 ≠ '-' := fun hh => hbhead.1 (by rw [hh])
        have h2 : c0 ≠ '_' := fun hh => hbhead.2 (by rw [hh])
        intro hcon
        simp only [Option.map_some', Option.some.injEq] at hcon
        rw [← hx] at hcon
        exact subU_ne c0 h1 h2 hcon
  have hA' : (replaceDD ((a.map Char.toLower).map subU)).getLast? ≠ some '-' := by
    rw [replaceDD_getLast?]; exact hA
  have hB' : (replaceDD (((b.map Char.toLower).takeWhile (fun c => c != '.')).map subU)).head?
      ≠ some '-' := by
    rw [replaceDD_head?]; exact hB
  have hm : (((n + 1) / 2) + 1) / 2 = 1 := by omega
  have hlaDot' : ∀ c ∈ a.map Char.toLower, (c != '.') = true :=
    fun c hc => hlaDot c (List.mem_append.mpr (Or.inl hc))
  unfold cleanDeviceCore
  rw [hmap, htake, hsub, List.append_assoc,
    replaceDD_append _ _ hA, replaceDD_replicate_append _ _ hB,
    replaceDD_append _ _ hA', replaceDD_replicate_append _ _ hB',
    hm, List.replicate_one, List.singleton_append,
    takeWhile_all hlaDot']

/-- C3 witness: the double-underscore run in `"x__y"` collapses to one
dash. -/
theorem claim_C3_witness :
    cleanDeviceCore ("x".data ++ "__".data ++ "y".data)
      = cleanDeviceCore "x".data ++ '-' :: cleanDeviceCore "y".data :=
  claim_C3 "x".data "__".data "y".data 2 (by decide) (by decide) (by decide)
    (by decide) (by decide) (by decide) (by decide)

/-- C6: with the shipped abbreviation table (`gigabitethernet` to `gi`,
`port-channel` to `po`), `normalize_interface_hostname` produces
`sw1-gi-0-1` from `GigabitEthernet0/1` and `sw1-po-12` from
`Port-channel12`. -/
theorem claim_C6 :
    lookupIface INTERFACE_MAP "gigabitethernet" = some "gi" ∧
    lookupIface INTERFACE_MAP "port-channel" = some "po" ∧
    clean_interface_hostname "sw1" "GigabitEthernet0/1" = .ok "sw1-gi-0-1" ∧
    clean_interface_hostname "sw1" "Port-channel12" = .ok "sw1-po-12" :=
  ⟨rfl, rfl, rfl, rfl⟩

/-- C8: `normalize_device_hostname` is idempotent on canonical inputs
(lowercase, no dots, no underscores, no consecutive dashes): applying
it twice equals applying it once. -/
theorem claim_C8 (s : String) (h : CanonicalHostname s) :
    clean_device_hostname (clean_device_hostname s) = clean_device_hostname s := by
  simp only [clean_device_hostname_canonical_fix h]

/-- C8 witness at the canonical hostname `"sw1-a"`. -/
theorem claim_C8_witness :
    clean_device_hostname (clean_device_hostname "sw1-a") = clean_device_hostname "sw1-a" :=
  claim_C8 "sw1-a" (by refine ⟨?_, ?_, ?_, ?_⟩ <;> decide)

/-- C10: whenever the lowercased, separator-normalized interface string
does not begin with an ASCII lowercase letter (for example `"0/1"`,
`"-eth0"` or the empty string), `normalize_interface_hostname` fails
with the unhandled `IndexError` (from indexing the empty regex match
list), not with the unknown-interface-type error. -/
theorem claim_C10 (hostname interface : String)
    (h : ∀ c, (normIface interface.data).head? = some c → isLowerAlpha c = false) :
    clean_interface_hostname hostname interface = .error .indexError := by
  have hempty : ((normIface interface.data).takeWhile isLowerAlpha).isEmpty = true := by
    rcases hni : normIface interface.data with _ | ⟨c, rest⟩
    · rfl
    · rw [List.takeWhile_cons, h c (by rw [hni]; rfl)]
      rfl
  have hnone : extractType (normIface interface.data) = none := by
    simp only [extractType]
    rw [hempty]
    simp
  simp only [clean_interface_hostname, cleanInterfaceCore]
  rw [hnone]
  rfl

/-- C10 witness at interface string `"0/1"` (normalized form `"0-1"`,
which begins with a digit). -/
theorem claim_C10_witness :
    clean_interface_hostname "sw1" "0/1" = .error .indexError :=
  claim_C10 "sw1" "0/1" (by
    intro c hc
    have h0 : some '0' = some c := by
      rw [show (normIface "0/1".data).head? = some '0' from rfl] at hc
      exact hc
    rw [← Option.some.inj h0]
    decide)

/-! ## Claim theorems: record construction and DNS classification -/

/-- Concrete DNS environment with no records at all (every lookup
raises). -/
def dnsNone : DnsOracle := ⟨fun _ => none, fun _ => none⟩

/-- Concrete DNS environment whose reverse zone holds an
interface-level PTR for every address. -/
def dnsIfacePtr : DnsOracle := ⟨fun _ => none, fun _ => some "sw1-gi-0-1.gatesint.com"⟩

/-- The record built for `10.0.0.1` / `sw1` in the empty DNS
environment. -/
def recPlain : Address_FQDN := {
  ip_address := "10.0.0.1"
  hostname := "sw1"
  domain := "gatesint.com"
  full_name := "sw1.gatesint.com"
  forward_lookup_exists := false
  forward_lookup_needs_update := true
  forward_lookup_existing_value := none
  reverse_lookup_exists := false
  reverse_lookup_needs_update := true
  reverse_lookup_existing_value := none
  ptr_record := "1.0.0.10.in-addr.arpa" }

/-- The record built for `10.0.0.1` / `sw1` when the reverse zone holds
the interface-level PTR `sw1-gi-0-1.gatesint.com`. -/
def recIfacePtr : Address_FQDN := {
  ip_address := "10.0.0.1"
  hostname := "sw1"
  domain := "gatesint.com"
  full_name := "sw1.gatesint.com"
  forward_lookup_exists := false
  forward_lookup_needs_update := true
  forward_lookup_existing_value := none
  reverse_lookup_exists := true
  reverse_lookup_needs_update := false
  reverse_lookup_existing_value := some "sw1-gi-0-1.gatesint.com"
  ptr_record := "1.0.0.10.in-addr.arpa" }

/-- C2 (counterexample): the claim says construction fails whenever the
hostname is empty after trimming; the whitespace-only hostname `" "` is
accepted (the source checks the length before trimming) and the
constructed record's hostname field is the empty string. -/
theorem claim_C2_counterexample :
    (Address_FQDN_init dnsNone ⟨10, 0, 0, 1⟩ " " none).toOption.map Address_FQDN.hostname
      = some "" :=
  rfl

/-- C2 (amended): construction fails with `InvalidHostname` when the
supplied hostname is the empty string (the check precedes trimming);
every successfully constructed record's hostname field is the trimmed,
lowercased input, which is empty when the input was whitespace-only. -/
theorem claim_C2 (dns : DnsOracle) (ip : IPv4) (hostname : String) (domain : Option String) :
    (hostname = "" → Address_FQDN_init dns ip hostname domain = .error .invalidHostname) ∧
    (∀ rec, Address_FQDN_init dns ip hostname domain = .ok rec →
      rec.hostname = ⟨lowerChars (strip hostname.data)⟩) := by
  constructor
  · intro h; subst h; rfl
  · intro rec h
    simp only [Address_FQDN_init] at h
    split at h
    · exact absurd h (by simp)
    · cases h
      rfl

/-- C2 witness: the empty hostname is rejected with
`InvalidHostname`. -/
theorem claim_C2_witness :
    Address_FQDN_init dnsNone ⟨10, 0, 0, 1⟩ "" none = .error .invalidHostname :=
  (claim_C2 dnsNone ⟨10, 0, 0, 1⟩ "" none).1 rfl

/-- C4: for every successfully constructed record, the reverse-lookup
classification is exactly: lookup failure gives NotFound
(`exists = false`) with no existing value; otherwise the returned name
is carried as the existing value, and the record is not flagged for
update precisely when the name equals `full_name` (MatchesExpected) or
begins with `hostname + "-"` while the prefer-interface-PTR option is
enabled (MatchesPreferredAlternate); any other name is flagged for
update (ExistsButDiffers). -/
theorem claim_C4 (dns : DnsOracle) (ip : IPv4) (hostname : String) (domain : Option String)
    (rec : Address_FQDN) (h : Address_FQDN_init dns ip hostname domain = .ok rec) :
    match dns.reverse rec.ip_address with
    | none => rec.reverse_lookup_exists = false ∧
        rec.reverse_lookup_existing_value = none ∧ rec.reverse_lookup_needs_update = true
    | some name => rec.reverse_lookup_exists = true ∧
        rec.reverse_lookup_existing_value = some name ∧
        (rec.reverse_lookup_needs_update = false ↔
          (name = rec.full_name ∨
            (beginsWith name.data (rec.hostname.data ++ ['-']) = true ∧
              PREFER_INTERFACE_FQDN_PTR = true))) := by
  simp only [Address_FQDN_init] at h
  split at h
  · exact absurd h (by simp)
  · cases h
    dsimp only
    rcases hr : dns.reverse ip.compressed with _ | name
    · simp [reverseLookupFields, hr]
    · simp only [reverseLookupFields, hr]
      by_cases h1 : name = (⟨lowerChars (strip hostname.data)⟩ : String) ++ "." ++
          (⟨lowerChars (strip (match domain with
            | none => DEFAULT_DOMAIN
            | some d => if d.length = 0 then DEFAULT_DOMAIN else d).data)⟩ : String)
      · simp [h1]
      · by_cases h2 : beginsWith name.data
            ((⟨lowerChars (strip hostname.data)⟩ : String).data ++ ['-']) = true
        · simp [h1, h2, PREFER_INTERFACE_FQDN_PTR]
        · simp [h1, h2, PREFER_INTERFACE_FQDN_PTR]

/-- C4 witness: with the interface-level PTR present and the option
enabled, the record is not flagged for update. -/
theorem claim_C4_witness :
    recIfacePtr.reverse_lookup_exists = true ∧
    recIfacePtr.reverse_lookup_existing_value = some "sw1-gi-0-1.gatesint.com" ∧
    recIfacePtr.reverse_lookup_needs_update = false := by
  have h := claim_C4 dnsIfacePtr ⟨10, 0, 0, 1⟩ "sw1" none recIfacePtr rfl
  obtain ⟨h1, h2, h3⟩ := h
  exact ⟨h1, h2, h3.mpr (Or.inr ⟨rfl, rfl⟩)⟩

/-- C5: record construction succeeds for every non-empty hostname
regardless of the DNS environment (a forward-lookup failure never
prevents the record), and the forward-lookup classification is exactly:
lookup failure gives NotFound with no existing value; otherwise the
returned address is carried as the existing value and the record is not
flagged for update precisely when it equals `ip_address`. -/
theorem claim_C5 (dns : DnsOracle) (ip : IPv4) (hostname : String) (domain : Option String) :
    (hostname.length ≠ 0 → ∃ rec, Address_FQDN_init dns ip hostname domain = .ok rec) ∧
    (∀ rec, Address_FQDN_init dns ip hostname domain = .ok rec →
      match dns.forward rec.full_name with
      | none => rec.forward_lookup_exists = false ∧
          rec.forward_lookup_existing_value = none ∧ rec.forward_lookup_needs_update = true
      | some addr => rec.forward_lookup_exists = true ∧
          rec.forward_lookup_existing_value = some addr ∧
          (rec.forward_lookup_needs_update = false ↔ addr = rec.ip_address)) := by
  constructor
  · intro h
    simp only [Address_FQDN_init]
    rw [if_neg h]
    exact ⟨_, rfl⟩
  · intro rec h
    simp only [Address_FQDN_init] at h
    split at h
    · exact absurd h (by simp)
    · cases h
      dsimp only
      rcases hf : dns.forward ((⟨lowerChars (strip hostname.data)⟩ : String) ++ "." ++
          (⟨lowerChars (strip (match domain with
            | none => DEFAULT_DOMAIN
            | some d => if d.length = 0 then DEFAULT_DOMAIN else d).data)⟩ : String))
        with _ | addr
      · simp [forwardLookupFields, hf]
      · simp only [forwardLookupFields, hf]
        by_cases h1 : addr = ip.compressed
        · simp [h1]
        · simp [h1]

/-- C5 witness: in the empty DNS environment the forward lookup of
`sw1.gatesint.com` is NotFound and the record is still produced. -/
theorem claim_C5_witness :
    recPlain.forward_lookup_exists = false ∧
    recPlain.forward_lookup_existing_value = none ∧
    recPlain.forward_lookup_needs_update = true :=
  (claim_C5 dnsNone ⟨10, 0, 0, 1⟩ "sw1" none).2 recPlain rfl

/-- C7 (counterexample): the claim says the domain is never empty when
`full_name` is formed; the whitespace-only domain `" "` passes the
zero-length check and trims to the empty string, giving
`full_name = "sw1."`. -/
theorem claim_C7_counterexample :
    (Address_FQDN_init dnsNone ⟨10, 0, 0, 1⟩ "sw1" (some " ")).toOption.map Address_FQDN.domain
      = some "" ∧
    (Address_FQDN_init dnsNone ⟨10, 0, 0, 1⟩ "sw1" (some " ")).toOption.map Address_FQDN.full_name
      = some "sw1." :=
  ⟨rfl, rfl⟩

/-- C7 (amended): an absent domain and the empty-string domain both
fall back to the configured default (which is non-empty), any other
supplied domain is trimmed and lowercased (so a whitespace-only domain
yields an empty domain field), `full_name` is always
`hostname ++ "." ++ domain`, the informational note fires exactly for
the empty-string domain, and the empty-string domain is non-fatal. -/
theorem claim_C7 (dns : DnsOracle) (ip : IPv4) (hostname : String) (domain : Option String) :
    (∀ rec, Address_FQDN_init dns ip hostname domain = .ok rec →
      rec.full_name = rec.hostname ++ "." ++ rec.domain ∧
      ((domain = none ∨ domain = some "") → rec.domain = DEFAULT_DOMAIN) ∧
      (∀ d, domain = some d → d ≠ "" →
        rec.domain = ⟨lowerChars (strip d.data)⟩)) ∧
    DEFAULT_DOMAIN ≠ "" ∧
    (emptyDomainNote domain = true ↔ domain = some "") ∧
    (hostname.length ≠ 0 → ∃ rec, Address_FQDN_init dns ip hostname (some "") = .ok rec) := by
  refine ⟨?_, by decide, ?_, ?_⟩
  · intro rec h
    simp only [Address_FQDN_init] at h
    split at h
    · exact absurd h (by simp)
    · cases h
      refine ⟨rfl, ?_, ?_⟩
      · rintro (hd | hd) <;> subst hd <;> rfl
      · intro d hd hne
        subst hd
        have hlen : d.length ≠ 0 := fun hl => hne (by
          cases d with
          | mk l => cases l with
            | nil => rfl
            | cons c cs => simp [String.length] at hl)
        dsimp only
        rw [if_neg hlen]
  · cases domain with
    | none => simp [emptyDomainNote]
    | some d =>
      simp only [emptyDomainNote, Option.some.injEq]
      constructor
      · intro hl
        cases d with
        | mk l => cases l with
          | nil => rfl
          | cons c cs => simp [String.length] at hl
      · intro hd; subst hd; rfl
  · intro h
    simp only [Address_FQDN_init]
    rw [if_neg h]
    exact ⟨_, rfl⟩

/-- C7 witness: with no domain supplied, the record's domain is the
default and `full_name` is composed from it. -/
theorem claim_C7_witness :
    recPlain.full_name = recPlain.hostname ++ "." ++ recPlain.domain ∧
    recPlain.domain = DEFAULT_DOMAIN := by
  have h := (claim_C7 dnsNone ⟨10, 0, 0, 1⟩ "sw1" none).1 recPlain rfl
  exact ⟨h.1, h.2.1 (Or.inl rfl)⟩

/-! ## Claim theorems: the batch coordinator -/

theorem rowOutputs_append (dns : DnsOracle) (xs ys : List Row) :
    rowOutputs dns (xs ++ ys) = rowOutputs dns xs ++ rowOutputs dns ys := by
  simp [rowOutputs, List.map_append, List.filterMap_append]

/-- The row whose interface type is unknown to the abbreviation
table. -/
def row0 : Row := ⟨"10.0.0.1", "sw1", some "Wireless0", none⟩

/-- C1 (counterexample): the claim says a row with an unknown interface
type is excluded from the output; on the one-row batch with interface
`"Wireless0"` the unknown-type error is raised and caught, but the
output still contains one record — built from the device hostname. -/
theorem claim_C1_counterexample :
    clean_interface_hostname (clean_device_hostname "sw1") "Wireless0"
      = .error (.unknownInterfaceType "wireless") ∧
    (main_run dnsNone [row0]).status = true ∧
    ((main_run dnsNone [row0]).data.map List.length) = some 1 ∧
    ((main_run dnsNone [row0]).data.map (fun l => l.map Address_FQDN.full_name))
      = some ["sw1.gatesint.com"] :=
  ⟨rfl, rfl, rfl, rfl⟩

/-- C1 (amended): a row whose interface type is not in the abbreviation
table raises the unknown-type error, which the coordinator catches and
logs; the row is NOT excluded — it falls back to the cleaned device
hostname and still yields a record (when its address and hostname are
valid), and all other rows are processed unchanged. -/
theorem claim_C1 (dns : DnsOracle) (pre post : List Row) (r : Row) (i t : String)
    (rec : Address_FQDN)
    (hi : r.interface_name = some i) (hlen : i.length > 0)
    (herr : clean_interface_hostname (clean_device_hostname r.device_hostname) i
      = .error (.unknownInterfaceType t))
    (hbuild : Address_FQDN_build dns r.ip_address (clean_device_hostname r.device_hostname)
      r.domain = .ok rec) :
    main_run dns (pre ++ r :: post)
      = { status := true,
          data := some (rowOutputs dns pre ++ rec :: rowOutputs dns post) } := by
  have hne : (pre ++ r :: post).length ≠ 0 := by simp
  have hclean : cleanRow r = { r with device_hostname := clean_device_hostname r.device_hostname } := by
    simp [cleanRow, hi, hlen, herr]
  unfold main_run
  rw [if_neg hne]
  rw [rowOutputs_append]
  have hcons : rowOutputs dns (r :: post) = rec :: rowOutputs dns post := by
    simp [rowOutputs, List.filterMap_cons, hclean, hbuild, Except.toOption]
  rw [hcons]

/-- C1 witness at the concrete one-row batch. -/
theorem claim_C1_witness :
    main_run dnsNone ([] ++ row0 :: [])
      = { status := true,
          data := some (rowOutputs dnsNone [] ++ recPlain :: rowOutputs dnsNone []) } :=
  claim_C1 dnsNone [] [] row0 "Wireless0" "wireless" recPlain rfl (by decide) rfl rfl

/-- C9: the coordinator reports a whole-batch failure (status false, no
data) exactly when the input has zero rows; every non-empty batch
yields status true with an output list, however many individual rows
fail. -/
theorem claim_C9 (dns : DnsOracle) (rows : List Row) :
    ((main_run dns rows).status = false ↔ rows = []) ∧
    (rows = [] → main_run dns rows = { status := false, data := none }) ∧
    (rows ≠ [] → (main_run dns rows).status = true ∧
      (main_run dns rows).data = some (rowOutputs dns rows)) := by
  rcases rows with _ | ⟨r, rs⟩
  · simp [main_run]
  · simp [main_run]

/-- C9 witness: the empty batch fails; the one-row batch succeeds. -/
theorem claim_C9_witness :
    main_run dnsNone [] = { status := false, data := none } ∧
    (main_run dnsNone [row0]).status = true :=
  ⟨(claim_C9 dnsNone []).2.1 rfl, ((claim_C9 dnsNone [row0]).2.2 (by simp)).1⟩

end Fqdn
